import Mathlib

/-!
Shallow embedding of `gdenv-lib/src/addons.rs` (the addon tree synchronizer).

Filesystem paths are modelled as their lists of path components
(`Path := List String`).  This matches the semantics of Rust's
`std::path::Path`: `Path::starts_with` "only considers whole path
components to match", and `strip_prefix` removes a component-wise
base.  A destination filesystem is modelled as an association list
from paths to nodes (directory or file-with-content); the two
mutations the code performs, `fs::create_dir_all` and `fs::copy`, are
modelled by `create_dir_all` and `copyFile` below.  The `WalkDir`
traversal is modelled by handing `sync_recursive` the list of items
the walk yields: either a successfully read entry (absolute path plus
its node) or a traversal error, which the code drops via
`.filter_map(|e| e.ok())`.

The error channel mirrors the `anyhow` usage in the source:
`strip_prefix` failures get the fixed "Failed to strip prefix"
context, `fs::create_dir_all` failures are propagated bare with `?`
(carrying only the underlying I/O cause, no paths), and `fs::copy`
failures are wrapped `with_context` naming the source and destination
paths.
-/

namespace Gdenv

/-- A filesystem path as its list of components (Rust `PathBuf`,
component view). -/
abbrev Path := List String

/-- A filesystem node: a directory, or a file with its byte content. -/
inductive Node where
  | dir : Node
  | file (content : String) : Node
deriving DecidableEq

/-- A filesystem tree as an association list from absolute paths to
nodes.  Lookup takes the first matching entry. -/
abbrev FS := List (Path × Node)

/-- First-match lookup in a filesystem. -/
def FS.lookup : FS → Path → Option Node
  | [], _ => none
  | (q, n) :: rest, p => if q = p then some n else FS.lookup rest p

/-- Write a node at a path: replace the first entry with that path in
place, or append a fresh entry at the end when the path is absent. -/
def FS.set : FS → Path → Node → FS
  | [], p, n => [(p, n)]
  | (q, m) :: rest, p, n =>
    if q = p then (p, n) :: rest else (q, m) :: FS.set rest p n

/-- Rust `path.starts_with(base)`: `base` is a component-wise
prefix of `path` (whole components only). -/
def startsWith (path base : Path) : Bool := base.isPrefixOf path

/-- Lines 42-46 of `addons.rs`: the exclude check.  True when an
exclude list is present and some entry is a component-wise prefix of
`rel_path`. -/
def excludedBy (excludes : Option (List Path)) (rel_path : Path) : Bool :=
  match excludes with
  | some exs => exs.any fun ex => startsWith rel_path ex
  | none => false

/-- Lines 49-56 of `addons.rs`: the include check.  When an include
list is present, `rel_path` must be inside some include entry or be an
ancestor of one; when absent, everything is included. -/
def includedBy (includes : Option (List Path)) (rel_path : Path) : Bool :=
  match includes with
  | some incs => incs.any fun inc => startsWith rel_path inc || startsWith inc rel_path
  | none => true

/-- The path filter of `sync_recursive` (spec section 4.1,
`should_include`): the exclude check runs first and is authoritative,
then the include check. -/
def should_include (rel_path : Path) (excludes includes : Option (List Path)) : Bool :=
  !excludedBy excludes rel_path && includedBy includes rel_path

/-- Rust `path.strip_prefix(source_base)` on component lists: remove
`base` from the front of `p`, or fail when `base` is not a
component-wise prefix. -/
def stripBase : Path → Path → Option Path
  | [], p => some p
  | _ :: _, [] => none
  | b :: bs, c :: cs => if b = c then stripBase bs cs else none

/-- All nonempty component-wise ancestors of a path, shortest first,
ending with the path itself.  `fs::create_dir_all` creates exactly
these (missing) directories; the filesystem root `[]` always exists. -/
def pathAncestors : Path → List Path
  | [] => []
  | a :: rest => [a] :: (pathAncestors rest).map fun q => a :: q

/-- Create one directory: ok if it already is a directory, error if a
file sits there (bare I/O cause, as `create_dir_all` reports), create
it otherwise. -/
def mkdirOne (fs : FS) (q : Path) : Except String FS :=
  match FS.lookup fs q with
  | some Node.dir => Except.ok fs
  | some (Node.file _) => Except.error "File exists (os error 17)"
  | none => Except.ok (FS.set fs q Node.dir)

/-- Create each directory of a list in order, stopping at the first
failure. -/
def mkdirList : FS → List Path → Except String FS
  | fs, [] => Except.ok fs
  | fs, q :: qs =>
    match mkdirOne fs q with
    | Except.error e => Except.error e
    | Except.ok fs' => mkdirList fs' qs

/-- Rust `fs::create_dir_all(p)`: create `p` and all missing
ancestors; the empty path is accepted as already existing. -/
def create_dir_all (fs : FS) (p : Path) : Except String FS :=
  mkdirList fs (pathAncestors p)

/-- Rust `Path::parent` on component lists: drop the last component;
the empty path has no parent. -/
def parentOf : Path → Option Path
  | [] => none
  | a :: rest => some ((a :: rest).dropLast)

/-- Whether `q` exists as a directory: the root `[]` always does,
otherwise a directory node must sit at `q`. -/
def dirExistsAt (fs : FS) (q : Path) : Bool :=
  q.isEmpty ||
    (match FS.lookup fs q with
     | some Node.dir => true
     | _ => false)

/-- Rust `fs::copy(path, target)`: fails when the target's parent
directory is missing or the target is a directory; otherwise writes
the file content at the target, overwriting any existing file. -/
def copyFile (fs : FS) (target : Path) (content : String) : Except String FS :=
  match parentOf target with
  | none => Except.error "No such file or directory (os error 2)"
  | some par =>
    if dirExistsAt fs par then
      match FS.lookup fs target with
      | some Node.dir => Except.error "Is a directory (os error 21)"
      | _ => Except.ok (FS.set fs target (Node.file content))
    else Except.error "No such file or directory (os error 2)"

/-- The error channel of `sync_recursive`, mirroring the `anyhow`
contexts of the source: `strip` is the fixed "Failed to strip prefix"
context, `ioErr` a directory-creation error propagated bare by `?`
(only the underlying cause), `copy` the `with_context` wrapper naming
the source and destination paths. -/
inductive SyncError where
  | strip : SyncError
  | ioErr (cause : String) : SyncError
  | copy (src : Path) (dest : Path) (cause : String) : SyncError
deriving DecidableEq

/-- The source and destination paths an error message carries, if
any. -/
def SyncError.pathInfo : SyncError → Option (Path × Path)
  | SyncError.copy s d _ => some (s, d)
  | _ => none

/-- One item yielded by the `WalkDir` traversal: a successfully read
entry (absolute path and node), or a per-entry traversal error. -/
inductive WalkItem where
  | ok (path : Path) (node : Node) : WalkItem
  | err (msg : String) : WalkItem
deriving DecidableEq

/-- The body of the `for` loop of `sync_recursive` (lines 37-68) for
one walk item: traversal errors are dropped, the relative path is
computed by stripping the source base, the exclude then include
checks may skip the entry, and the entry is then mirrored into the
destination (directory creation for directories; parent creation plus
copy for files).  Returns the new filesystem and an error when the
iteration must abort. -/
def syncStep (source_base dest_base : Path) (includes excludes : Option (List Path))
    (fs : FS) : WalkItem → FS × Option SyncError
  | WalkItem.err _ => (fs, none)
  | WalkItem.ok path node =>
    match stripBase source_base path with
    | none => (fs, some SyncError.strip)
    | some rel_path =>
      if excludedBy excludes rel_path then (fs, none)
      else if !includedBy includes rel_path then (fs, none)
      else
        let target_path := dest_base ++ rel_path
        match node with
        | Node.dir =>
          match create_dir_all fs target_path with
          | Except.error cause => (fs, some (SyncError.ioErr cause))
          | Except.ok fs' => (fs', none)
        | Node.file content =>
          match
            (match parentOf target_path with
             | some parent => create_dir_all fs parent
             | none => Except.ok fs) with
          | Except.error cause => (fs, some (SyncError.ioErr cause))
          | Except.ok fs1 =>
            match copyFile fs1 target_path content with
            | Except.error cause => (fs1, some (SyncError.copy path target_path cause))
            | Except.ok fs2 => (fs2, none)

/-- `sync_recursive` (lines 29-71): run `syncStep` over the walk items
in order, stopping at the first fatal error. -/
def sync_recursive (source_base dest_base : Path)
    (includes excludes : Option (List Path)) :
    List WalkItem → FS → FS × Option SyncError
  | [], fs => (fs, none)
  | item :: rest, fs =>
    match syncStep source_base dest_base includes excludes fs item with
    | (fs', none) => sync_recursive source_base dest_base includes excludes rest fs'
    | (fs', some e) => (fs', some e)

/-- The destination paths of the file copies `sync_recursive` performs:
one for each successfully walked file entry that passes the filter. -/
def copyTargets (source_base dest_base : Path)
    (includes excludes : Option (List Path)) : List WalkItem → List Path
  | [] => []
  | WalkItem.err _ :: rest => copyTargets source_base dest_base includes excludes rest
  | WalkItem.ok p node :: rest =>
    match stripBase source_base p with
    | none => copyTargets source_base dest_base includes excludes rest
    | some r =>
      if should_include r excludes includes then
        match node with
        | Node.file _ => (dest_base ++ r) :: copyTargets source_base dest_base includes excludes rest
        | Node.dir => copyTargets source_base dest_base includes excludes rest
      else copyTargets source_base dest_base includes excludes rest

/-- The absolute paths of the successfully read walk items. -/
def okPaths : List WalkItem → List Path
  | [] => []
  | WalkItem.ok p _ :: rest => p :: okPaths rest
  | WalkItem.err _ :: rest => okPaths rest

/-- One addon's record in the project specification (`AddonSpec`):
optional source path (a relative path, defaulting to the working
directory itself), optional include list, optional exclude list. -/
structure AddonSpec where
  path : Option Path
  «include» : Option (List Path)
  «exclude» : Option (List Path)
deriving DecidableEq

/-- The `ProjectSpecification` fields `sync_addons` consumes: the
addon map and the shared destination path. -/
structure ProjectSpecification where
  addons : List (String × AddonSpec)
  project_path : Path

/-- The warning `sync_addons` logs for an addon whose source path
does not exist (line 15). -/
def warnMissing (addon_name : String) (source_base : Path) : String :=
  "Addon " ++ addon_name ++ " path " ++ String.intercalate "/" source_base ++
    " does not exist, skipping"

/-- The `for` loop of `sync_addons` (lines 9-25).  `walkOf` stands for
the filesystem on the source side: `none` when the resolved source
base does not exist (the addon is then skipped with a warning), and
otherwise the items its recursive walk yields.  Warnings accumulate in
reverse and are returned in order. -/
def syncAddonsGo (working_dir project_path : Path)
    (walkOf : Path → Option (List WalkItem)) :
    List (String × AddonSpec) → FS → List String → FS × List String × Option SyncError
  | [], fs, warns => (fs, warns.reverse, none)
  | (addon_name, addon_spec) :: rest, fs, warns =>
    let source_base := working_dir ++ addon_spec.path.getD []
    let dest_base := working_dir ++ project_path
    match walkOf source_base with
    | none =>
      syncAddonsGo working_dir project_path walkOf rest fs
        (warnMissing addon_name source_base :: warns)
    | some walk =>
      match sync_recursive source_base dest_base addon_spec.«include» addon_spec.«exclude» walk fs with
      | (fs', none) => syncAddonsGo working_dir project_path walkOf rest fs' warns
      | (fs', some e) => (fs', warns.reverse, some e)

/-- `sync_addons` (lines 8-27): fan out one `sync_recursive` call per
addon, resolving each source base against the working directory. -/
def sync_addons (project_spec : ProjectSpecification) (working_dir : Path)
    (walkOf : Path → Option (List WalkItem)) (fs : FS) :
    FS × List String × Option SyncError :=
  syncAddonsGo working_dir project_spec.project_path walkOf project_spec.addons fs []

/-! ### Lemmas about the filesystem model -/

theorem lookup_set (fs : FS) (p : Path) (n : Node) (q : Path) :
    FS.lookup (FS.set fs p n) q = if q = p then some n else FS.lookup fs q := by
  induction fs with
  | nil =>
    by_cases h : q = p
    · subst h; simp [FS.set, FS.lookup]
    · have h' : ¬(p = q) := fun hh => h hh.symm
      simp [FS.set, FS.lookup, h, h']
  | cons e rest ih =>
    obtain ⟨a, m⟩ := e
    by_cases h1 : a = p
    · subst h1
      by_cases h2 : q = a
      · subst h2; simp [FS.set, FS.lookup]
      · have h2' : ¬(a = q) := fun hh => h2 hh.symm
        simp [FS.set, FS.lookup, h2, h2']
    · by_cases h2 : a = q
      · have hqp : ¬(q = p) := fun hh => h1 (h2.trans hh)
        simp [FS.set, FS.lookup, h1, h2, hqp]
      · simp [FS.set, FS.lookup, h1, h2, ih]

theorem set_id {fs : FS} {p : Path} {n : Node} (h : FS.lookup fs p = some n) :
    FS.set fs p n = fs := by
  induction fs with
  | nil => simp [FS.lookup] at h
  | cons e rest ih =>
    obtain ⟨a, m⟩ := e
    by_cases h1 : a = p
    · subst h1
      simp [FS.lookup] at h
      simp [FS.set, h]
    · simp [FS.lookup, h1] at h
      simp [FS.set, h1, ih h]

theorem stripBase_append (b r : Path) : stripBase b (b ++ r) = some r := by
  induction b with
  | nil => rfl
  | cons a bs ih => simp [stripBase, ih]

theorem stripBase_eq_some {b p r : Path} (h : stripBase b p = some r) : p = b ++ r := by
  induction b generalizing p with
  | nil => simp [stripBase] at h; simp [h]
  | cons a bs ih =>
    cases p with
    | nil => simp [stripBase] at h
    | cons c cs =>
      by_cases hac : a = c
      · subst hac
        simp [stripBase] at h
        simp [ih h]
      · simp [stripBase, hac] at h

theorem mkdirOne_ok_preserves {fs fs' : FS} {q : Path}
    (h : mkdirOne fs q = Except.ok fs') {x : Path} {n : Node}
    (hx : FS.lookup fs x = some n) : FS.lookup fs' x = some n := by
  unfold mkdirOne at h
  cases hq : FS.lookup fs q with
  | none =>
    rw [hq] at h
    cases h
    rw [lookup_set]
    by_cases hxq : x = q
    · subst hxq; rw [hx] at hq; cases hq
    · simp [hxq, hx]
  | some node =>
    cases node with
    | dir => rw [hq] at h; cases h; exact hx
    | file c => rw [hq] at h; cases h

theorem mkdirOne_ok_dir {fs fs' : FS} {q : Path}
    (h : mkdirOne fs q = Except.ok fs') : FS.lookup fs' q = some Node.dir := by
  unfold mkdirOne at h
  cases hq : FS.lookup fs q with
  | none => rw [hq] at h; cases h; rw [lookup_set]; simp
  | some node =>
    cases node with
    | dir => rw [hq] at h; cases h; exact hq
    | file c => rw [hq] at h; cases h

theorem mkdirOne_id {fs : FS} {q : Path} (h : FS.lookup fs q = some Node.dir) :
    mkdirOne fs q = Except.ok fs := by
  unfold mkdirOne; rw [h]

theorem mkdirList_ok_preserves {l : List Path} :
    ∀ {fs fs' : FS}, mkdirList fs l = Except.ok fs' →
      ∀ {x : Path} {n : Node}, FS.lookup fs x = some n → FS.lookup fs' x = some n := by
  induction l with
  | nil => intro fs fs' h x n hx; unfold mkdirList at h; cases h; exact hx
  | cons q qs ih =>
    intro fs fs' h x n hx
    unfold mkdirList at h
    cases hone : mkdirOne fs q with
    | error e => rw [hone] at h; cases h
    | ok fsA => rw [hone] at h; exact ih h (mkdirOne_ok_preserves hone hx)

theorem mkdirList_ok_dirs {l : List Path} :
    ∀ {fs fs' : FS}, mkdirList fs l = Except.ok fs' →
      ∀ q ∈ l, FS.lookup fs' q = some Node.dir := by
  induction l with
  | nil => intro fs fs' h q hq; cases hq
  | cons a qs ih =>
    intro fs fs' h q hq
    unfold mkdirList at h
    cases hone : mkdirOne fs a with
    | error e => rw [hone] at h; cases h
    | ok fsA =>
      rw [hone] at h
      rcases List.mem_cons.mp hq with rfl | hmem
      · exact mkdirList_ok_preserves h (mkdirOne_ok_dir hone)
      · exact ih h q hmem

theorem mkdirList_id {l : List Path} {fs : FS}
    (h : ∀ q ∈ l, FS.lookup fs q = some Node.dir) : mkdirList fs l = Except.ok fs := by
  induction l with
  | nil => rfl
  | cons a qs ih =>
    unfold mkdirList
    rw [mkdirOne_id (h a (List.mem_cons_self a qs))]
    exact ih fun q hq => h q (List.mem_cons_of_mem a hq)

theorem create_dir_all_ok_preserves {fs fs' : FS} {p : Path}
    (h : create_dir_all fs p = Except.ok fs') {x : Path} {n : Node}
    (hx : FS.lookup fs x = some n) : FS.lookup fs' x = some n :=
  mkdirList_ok_preserves h hx

theorem create_dir_all_ok_dirs {fs fs' : FS} {p : Path}
    (h : create_dir_all fs p = Except.ok fs') :
    ∀ q ∈ pathAncestors p, FS.lookup fs' q = some Node.dir :=
  mkdirList_ok_dirs h

theorem create_dir_all_id {fs : FS} {p : Path}
    (h : ∀ q ∈ pathAncestors p, FS.lookup fs q = some Node.dir) :
    create_dir_all fs p = Except.ok fs :=
  mkdirList_id h

theorem mem_pathAncestors_self {p : Path} (h : p ≠ []) : p ∈ pathAncestors p := by
  induction p with
  | nil => exact absurd rfl h
  | cons a rest ih =>
    cases rest with
    | nil => simp [pathAncestors]
    | cons b bs =>
      have hmem : (b :: bs) ∈ pathAncestors (b :: bs) := ih (by simp)
      exact List.mem_cons_of_mem _ (List.mem_map.mpr ⟨b :: bs, hmem, rfl⟩)

theorem dirExistsAt_of_lookup {fs : FS} {q : Path}
    (h : FS.lookup fs q = some Node.dir) : dirExistsAt fs q = true := by
  simp [dirExistsAt, h]

theorem dirExistsAt_of_ancestors {fs : FS} {par : Path}
    (h : ∀ q ∈ pathAncestors par, FS.lookup fs q = some Node.dir) :
    dirExistsAt fs par = true := by
  cases par with
  | nil => rfl
  | cons a rest => exact dirExistsAt_of_lookup (h _ (mem_pathAncestors_self (by simp)))

theorem copyFile_ok_eq {fs fs' : FS} {t : Path} {c : String}
    (h : copyFile fs t c = Except.ok fs') :
    fs' = FS.set fs t (Node.file c) ∧ FS.lookup fs t ≠ some Node.dir := by
  unfold copyFile at h
  cases hp : parentOf t with
  | none => rw [hp] at h; cases h
  | some par =>
    rw [hp] at h
    by_cases hd : dirExistsAt fs par = true
    · simp only [hd, if_true] at h
      cases ht : FS.lookup fs t with
      | none => rw [ht] at h; cases h; exact ⟨rfl, by simp [ht]⟩
      | some node =>
        cases node with
        | dir => rw [ht] at h; cases h
        | file c0 => rw [ht] at h; cases h; exact ⟨rfl, by simp [ht]⟩
    · simp only [Bool.not_eq_true] at hd
      simp only [hd, Bool.false_eq_true, if_false] at h
      cases h

theorem copyFile_ok_lookup {fs fs' : FS} {t : Path} {c : String}
    (h : copyFile fs t c = Except.ok fs') (q : Path) :
    FS.lookup fs' q = if q = t then some (Node.file c) else FS.lookup fs q := by
  obtain ⟨rfl, -⟩ := copyFile_ok_eq h
  exact lookup_set fs t (Node.file c) q

theorem copyFile_ok_preserves_dir {fs fs' : FS} {t : Path} {c : String}
    (h : copyFile fs t c = Except.ok fs') {q : Path}
    (hq : FS.lookup fs q = some Node.dir) : FS.lookup fs' q = some Node.dir := by
  obtain ⟨rfl, hnd⟩ := copyFile_ok_eq h
  rw [lookup_set]
  by_cases hqt : q = t
  · subst hqt; exact absurd hq hnd
  · simp [hqt, hq]

theorem copyFile_id {fs : FS} {t : Path} {c : String} {par : Path}
    (hp : parentOf t = some par) (hd : dirExistsAt fs par = true)
    (ht : FS.lookup fs t = some (Node.file c)) :
    copyFile fs t c = Except.ok fs := by
  unfold copyFile
  rw [hp]
  simp only [hd, if_true, ht, set_id ht]

theorem copyFile_error_isdir {fs : FS} {t : Path} {c cause : String} {par : Path}
    (hp : parentOf t = some par) (hd : dirExistsAt fs par = true)
    (h : copyFile fs t c = Except.error cause) :
    cause = "Is a directory (os error 21)" := by
  unfold copyFile at h
  rw [hp] at h
  simp only [hd, if_true] at h
  cases ht : FS.lookup fs t with
  | none => rw [ht] at h; cases h
  | some node =>
    cases node with
    | dir => rw [ht] at h; cases h; rfl
    | file c0 => rw [ht] at h; cases h

theorem sync_cons_ok {sb db : Path} {inc exc : Option (List Path)} {item : WalkItem}
    {rest : List WalkItem} {fs fsA : FS}
    (h : syncStep sb db inc exc fs item = (fsA, none)) :
    sync_recursive sb db inc exc (item :: rest) fs =
      sync_recursive sb db inc exc rest fsA := by
  simp only [sync_recursive]
  rw [h]

theorem sync_cons_err {sb db : Path} {inc exc : Option (List Path)} {item : WalkItem}
    {rest : List WalkItem} {fs fsA : FS} {er : SyncError}
    (h : syncStep sb db inc exc fs item = (fsA, some er)) :
    sync_recursive sb db inc exc (item :: rest) fs = (fsA, some er) := by
  simp only [sync_recursive]
  rw [h]

theorem syncStep_err {sb db : Path} {inc exc : Option (List Path)} {fs : FS} {m : String} :
    syncStep sb db inc exc fs (WalkItem.err m) = (fs, none) := rfl

theorem syncStep_strip_none {sb db : Path} {inc exc : Option (List Path)} {fs : FS}
    {p : Path} {node : Node} (hstrip : stripBase sb p = none) :
    syncStep sb db inc exc fs (WalkItem.ok p node) = (fs, some SyncError.strip) := by
  simp [syncStep, hstrip]

theorem syncStep_skip_excluded {sb db : Path} {inc exc : Option (List Path)} {fs : FS}
    {p r : Path} {node : Node} (hstrip : stripBase sb p = some r)
    (hex : excludedBy exc r = true) :
    syncStep sb db inc exc fs (WalkItem.ok p node) = (fs, none) := by
  simp [syncStep, hstrip, hex]

theorem syncStep_skip_not_included {sb db : Path} {inc exc : Option (List Path)} {fs : FS}
    {p r : Path} {node : Node} (hstrip : stripBase sb p = some r)
    (hex : excludedBy exc r = false) (hinc : includedBy inc r = false) :
    syncStep sb db inc exc fs (WalkItem.ok p node) = (fs, none) := by
  simp [syncStep, hstrip, hex, hinc]

theorem syncStep_dir_ok {sb db : Path} {inc exc : Option (List Path)} {fs fsA : FS}
    {p r : Path} (hstrip : stripBase sb p = some r)
    (hex : excludedBy exc r = false) (hinc : includedBy inc r = true)
    (hmk : create_dir_all fs (db ++ r) = Except.ok fsA) :
    syncStep sb db inc exc fs (WalkItem.ok p Node.dir) = (fsA, none) := by
  simp [syncStep, hstrip, hex, hinc, hmk]

theorem syncStep_dir_err {sb db : Path} {inc exc : Option (List Path)} {fs : FS}
    {p r : Path} {cause : String} (hstrip : stripBase sb p = some r)
    (hex : excludedBy exc r = false) (hinc : includedBy inc r = true)
    (hmk : create_dir_all fs (db ++ r) = Except.error cause) :
    syncStep sb db inc exc fs (WalkItem.ok p Node.dir) =
      (fs, some (SyncError.ioErr cause)) := by
  simp [syncStep, hstrip, hex, hinc, hmk]

theorem syncStep_file_noparent {sb db : Path} {inc exc : Option (List Path)} {fs : FS}
    {p r : Path} {content : String} (hstrip : stripBase sb p = some r)
    (hex : excludedBy exc r = false) (hinc : includedBy inc r = true)
    (hpar : parentOf (db ++ r) = none) :
    syncStep sb db inc exc fs (WalkItem.ok p (Node.file content)) =
      (fs, some (SyncError.copy p (db ++ r) "No such file or directory (os error 2)")) := by
  simp [syncStep, hstrip, hex, hinc, hpar, copyFile]

theorem syncStep_file_mkdir_err {sb db : Path} {inc exc : Option (List Path)} {fs : FS}
    {p r par : Path} {content cause : String} (hstrip : stripBase sb p = some r)
    (hex : excludedBy exc r = false) (hinc : includedBy inc r = true)
    (hpar : parentOf (db ++ r) = some par)
    (hmk : create_dir_all fs par = Except.error cause) :
    syncStep sb db inc exc fs (WalkItem.ok p (Node.file content)) =
      (fs, some (SyncError.ioErr cause)) := by
  simp [syncStep, hstrip, hex, hinc, hpar, hmk]

theorem syncStep_file_copy_err {sb db : Path} {inc exc : Option (List Path)} {fs fs1 : FS}
    {p r par : Path} {content cause : String} (hstrip : stripBase sb p = some r)
    (hex : excludedBy exc r = false) (hinc : includedBy inc r = true)
    (hpar : parentOf (db ++ r) = some par)
    (hmk : create_dir_all fs par = Except.ok fs1)
    (hcp : copyFile fs1 (db ++ r) content = Except.error cause) :
    syncStep sb db inc exc fs (WalkItem.ok p (Node.file content)) =
      (fs1, some (SyncError.copy p (db ++ r) cause)) := by
  simp [syncStep, hstrip, hex, hinc, hpar, hmk, hcp]

theorem syncStep_file_ok {sb db : Path} {inc exc : Option (List Path)} {fs fs1 fs2 : FS}
    {p r par : Path} {content : String} (hstrip : stripBase sb p = some r)
    (hex : excludedBy exc r = false) (hinc : includedBy inc r = true)
    (hpar : parentOf (db ++ r) = some par)
    (hmk : create_dir_all fs par = Except.ok fs1)
    (hcp : copyFile fs1 (db ++ r) content = Except.ok fs2) :
    syncStep sb db inc exc fs (WalkItem.ok p (Node.file content)) = (fs2, none) := by
  simp [syncStep, hstrip, hex, hinc, hpar, hmk, hcp]

/-! ### Preservation lemmas about the whole traversal -/

theorem sync_fst_preserves {sb db : Path} {inc exc : Option (List Path)} :
    ∀ {w : List WalkItem} {fs : FS} {q : Path} {n : Node},
      FS.lookup fs q = some n →
      q ∉ copyTargets sb db inc exc w →
      FS.lookup (sync_recursive sb db inc exc w fs).1 q = some n := by
  intro w
  induction w with
  | nil => intro fs q n hq _; exact hq
  | cons item rest ih =>
    intro fs q n hq hnt
    cases item with
    | err m =>
      rw [sync_cons_ok syncStep_err]
      exact ih hq (by simpa [copyTargets] using hnt)
    | ok p node =>
      cases hstrip : stripBase sb p with
      | none =>
        rw [sync_cons_err (syncStep_strip_none hstrip)]
        exact hq
      | some r =>
        by_cases hex : excludedBy exc r = true
        · rw [sync_cons_ok (syncStep_skip_excluded hstrip hex)]
          exact ih hq (by simpa [copyTargets, hstrip, should_include, hex] using hnt)
        · have hex' : excludedBy exc r = false := by simpa using hex
          by_cases hinc : includedBy inc r = true
          · cases node with
            | dir =>
              cases hmk : create_dir_all fs (db ++ r) with
              | error cause =>
                rw [sync_cons_err (syncStep_dir_err hstrip hex' hinc hmk)]
                exact hq
              | ok fsA =>
                rw [sync_cons_ok (syncStep_dir_ok hstrip hex' hinc hmk)]
                refine ih (create_dir_all_ok_preserves hmk hq) ?_
                simpa [copyTargets, hstrip, should_include, hex', hinc] using hnt
            | file content =>
              cases hpar : parentOf (db ++ r) with
              | none =>
                rw [sync_cons_err (syncStep_file_noparent hstrip hex' hinc hpar)]
                exact hq
              | some par =>
                cases hmk : create_dir_all fs par with
                | error cause =>
                  rw [sync_cons_err (syncStep_file_mkdir_err hstrip hex' hinc hpar hmk)]
                  exact hq
                | ok fs1 =>
                  cases hcp : copyFile fs1 (db ++ r) content with
                  | error cause =>
                    rw [sync_cons_err (syncStep_file_copy_err hstrip hex' hinc hpar hmk hcp)]
                    exact create_dir_all_ok_preserves hmk hq
                  | ok fs2 =>
                    rw [sync_cons_ok (syncStep_file_ok hstrip hex' hinc hpar hmk hcp)]
                    have hnt2 : ¬(q = db ++ r ∨ q ∈ copyTargets sb db inc exc rest) := by
                      simpa [copyTargets, hstrip, should_include, hex', hinc,
                        List.mem_cons] using hnt
                    have hqt : ¬(q = db ++ r) := fun hh => hnt2 (Or.inl hh)
                    refine ih ?_ fun hm => hnt2 (Or.inr hm)
                    rw [copyFile_ok_lookup hcp q, if_neg hqt]
                    exact create_dir_all_ok_preserves hmk hq
          · have hinc' : includedBy inc r = false := by simpa using hinc
            rw [sync_cons_ok (syncStep_skip_not_included hstrip hex' hinc')]
            exact ih hq
              (by simpa [copyTargets, hstrip, should_include, hex', hinc'] using hnt)

theorem sync_preserves_dir {sb db : Path} {inc exc : Option (List Path)} :
    ∀ {w : List WalkItem} {fs fs' : FS},
      sync_recursive sb db inc exc w fs = (fs', none) →
      ∀ {q : Path}, FS.lookup fs q = some Node.dir → FS.lookup fs' q = some Node.dir := by
  intro w
  induction w with
  | nil => intro fs fs' h q hq; cases h; exact hq
  | cons item rest ih =>
    intro fs fs' h q hq
    cases item with
    | err m =>
      rw [sync_cons_ok syncStep_err] at h
      exact ih h hq
    | ok p node =>
      cases hstrip : stripBase sb p with
      | none => rw [sync_cons_err (syncStep_strip_none hstrip)] at h; cases h
      | some r =>
        by_cases hex : excludedBy exc r = true
        · rw [sync_cons_ok (syncStep_skip_excluded hstrip hex)] at h
          exact ih h hq
        · have hex' : excludedBy exc r = false := by simpa using hex
          by_cases hinc : includedBy inc r = true
          · cases node with
            | dir =>
              cases hmk : create_dir_all fs (db ++ r) with
              | error cause =>
                rw [sync_cons_err (syncStep_dir_err hstrip hex' hinc hmk)] at h
                cases h
              | ok fsA =>
                rw [sync_cons_ok (syncStep_dir_ok hstrip hex' hinc hmk)] at h
                exact ih h (create_dir_all_ok_preserves hmk hq)
            | file content =>
              cases hpar : parentOf (db ++ r) with
              | none =>
                rw [sync_cons_err (syncStep_file_noparent hstrip hex' hinc hpar)] at h
                cases h
              | some par =>
                cases hmk : create_dir_all fs par with
                | error cause =>
                  rw [sync_cons_err (syncStep_file_mkdir_err hstrip hex' hinc hpar hmk)] at h
                  cases h
                | ok fs1 =>
                  cases hcp : copyFile fs1 (db ++ r) content with
                  | error cause =>
                    rw [sync_cons_err
                      (syncStep_file_copy_err hstrip hex' hinc hpar hmk hcp)] at h
                    cases h
                  | ok fs2 =>
                    rw [sync_cons_ok (syncStep_file_ok hstrip hex' hinc hpar hmk hcp)] at h
                    exact ih h
                      (copyFile_ok_preserves_dir hcp (create_dir_all_ok_preserves hmk hq))
          · have hinc' : includedBy inc r = false := by simpa using hinc
            rw [sync_cons_ok (syncStep_skip_not_included hstrip hex' hinc')] at h
            exact ih h hq

theorem mem_copyTargets {sb db : Path} {inc exc : Option (List Path)} :
    ∀ {w : List WalkItem} {x : Path}, x ∈ copyTargets sb db inc exc w →
      ∃ p r, p ∈ okPaths w ∧ stripBase sb p = some r ∧ x = db ++ r := by
  intro w
  induction w with
  | nil => intro x hx; cases hx
  | cons item rest ih =>
    intro x hx
    cases item with
    | err m =>
      simp only [copyTargets] at hx
      obtain ⟨p, r, hp, hs, hxx⟩ := ih hx
      exact ⟨p, r, by simpa [okPaths] using hp, hs, hxx⟩
    | ok p0 node =>
      cases hstrip : stripBase sb p0 with
      | none =>
        simp only [copyTargets, hstrip] at hx
        obtain ⟨p, r, hp, hs, hxx⟩ := ih hx
        exact ⟨p, r, by simp [okPaths, hp], hs, hxx⟩
      | some r0 =>
        by_cases hsi : should_include r0 exc inc = true
        · cases node with
          | dir =>
            simp only [copyTargets, hstrip, hsi, if_true] at hx
            obtain ⟨p, r, hp, hs, hxx⟩ := ih hx
            exact ⟨p, r, by simp [okPaths, hp], hs, hxx⟩
          | file c =>
            simp only [copyTargets, hstrip, hsi, if_true] at hx
            rcases List.mem_cons.mp hx with rfl | hmem
            · exact ⟨p0, r0, by simp [okPaths], hstrip, rfl⟩
            · obtain ⟨p, r, hp, hs, hxx⟩ := ih hmem
              exact ⟨p, r, by simp [okPaths, hp], hs, hxx⟩
        · have hsi' : should_include r0 exc inc = false := by simpa using hsi
          simp only [copyTargets, hstrip, hsi', Bool.false_eq_true, if_false] at hx
          obtain ⟨p, r, hp, hs, hxx⟩ := ih hx
          exact ⟨p, r, by simp [okPaths, hp], hs, hxx⟩

theorem head_target_not_in_rest {sb db : Path} {inc exc : Option (List Path)}
    {p r : Path} {rest : List WalkItem}
    (hstrip : stripBase sb p = some r) (hp : p ∉ okPaths rest) :
    db ++ r ∉ copyTargets sb db inc exc rest := by
  intro hmem
  obtain ⟨p', r', hp', hs', heq⟩ := mem_copyTargets hmem
  have hr : r = r' := List.append_cancel_left heq
  have hpp : p' = p := by
    rw [stripBase_eq_some hs', ← hr, ← stripBase_eq_some hstrip]
  exact hp (hpp ▸ hp')

theorem startsWith_iff {p b : Path} : startsWith p b = true ↔ b <+: p := by
  simp [startsWith, List.isPrefixOf_iff_prefix]

theorem parentOf_ne_none {t : Path} (h : t ≠ []) : parentOf t ≠ none := by
  cases t with
  | nil => exact absurd rfl h
  | cons a rest => simp [parentOf]

/-! ### The claims -/

/-- Claim C1: if some exclude entry is a component-wise prefix of a
relative path, the filter rejects that path regardless of the include
set — the exclude check runs first and is never overridden — and
`sync_recursive` skips such an entry. -/
theorem c1_exclude_authoritative (p : Path) (exs : List Path)
    (includes : Option (List Path)) (e : Path)
    (he : e ∈ exs) (hpre : e <+: p) :
    should_include p (some exs) includes = false ∧
    ∀ (sb db : Path) (rest : List WalkItem) (fs : FS) (node : Node),
      sync_recursive sb db includes (some exs) (WalkItem.ok (sb ++ p) node :: rest) fs =
        sync_recursive sb db includes (some exs) rest fs := by
  have hex : excludedBy (some exs) p = true := by
    simp only [excludedBy, List.any_eq_true]
    exact ⟨e, he, startsWith_iff.mpr hpre⟩
  constructor
  · simp [should_include, hex]
  · intro sb db rest fs node
    exact sync_cons_ok (syncStep_skip_excluded (stripBase_append sb p) hex)

/-- Witness for C1: the path `secret/f` matches the exclude `secret`
and is rejected even though it is also listed as an include, and the
corresponding walk entry is skipped. -/
theorem c1_witness :
    should_include ["secret", "f"] (some [["secret"]]) (some [["secret", "f"]]) = false ∧
    sync_recursive [] ["proj"] (some [["secret", "f"]]) (some [["secret"]])
      [WalkItem.ok ["secret", "f"] (Node.file "x")] [] =
      sync_recursive [] ["proj"] (some [["secret", "f"]]) (some [["secret"]]) [] [] := by
  have h := c1_exclude_authoritative ["secret", "f"] [["secret"]]
    (some [["secret", "f"]]) ["secret"] (by decide) (by decide)
  exact ⟨h.1, h.2 [] ["proj"] [] [] (Node.file "x")⟩

/-- Claim C2: with no matching exclude, a present include list accepts
exactly the paths that are inside some include entry or are an
ancestor of one; an absent include list accepts everything, and with
both lists absent every path is accepted. -/
theorem c2_include_semantics (p : Path) (excludes : Option (List Path))
    (incs : List Path) (hnoex : excludedBy excludes p = false) :
    (should_include p excludes (some incs) = true ↔
      ∃ i ∈ incs, i <+: p ∨ p <+: i) ∧
    should_include p excludes none = true ∧
    ∀ q : Path, should_include q none none = true := by
  refine ⟨?_, ?_, fun q => rfl⟩
  · simp [should_include, hnoex, includedBy, List.any_eq_true, startsWith_iff]
  · simp [should_include, hnoex, includedBy]

/-- Witness for C2 at a concrete path, exclude set and include set. -/
theorem c2_witness :
    (should_include ["addons", "x"] (some [["other"]]) (some [["addons"]]) = true ↔
      ∃ i ∈ [(["addons"] : Path)], i <+: ["addons", "x"] ∨ ["addons", "x"] <+: i) ∧
    should_include ["addons", "x"] (some [["other"]]) none = true ∧
    ∀ q : Path, should_include q none none = true :=
  c2_include_semantics ["addons", "x"] (some [["other"]]) [["addons"]] (by decide)

/-- Claim C3: prefix matching is component-aware, not raw string
matching: `addons2` extends the string `addons` but not the path
component `addons`, so a rule `addons` neither excludes nor includes
the path `addons2`. -/
theorem c3_component_aware :
    "addons2" = "addons" ++ "2" ∧
    startsWith ["addons2"] ["addons"] = false ∧
    should_include ["addons2"] (some [["addons"]]) none = true ∧
    should_include ["addons2"] none (some [["addons"]]) = false :=
  ⟨rfl, by decide, by decide, by decide⟩

/-- Claim C8 counterexample: with an include list that is present but
empty, the empty relative path (the source root itself) is rejected by
the filter, so the root does not pass for every include set. -/
theorem c8_counterexample : should_include [] none (some []) = false := rfl

/-- Claim C8 (amended): the source root's empty relative path passes
the filter whenever the include list is absent or nonempty, and it is
never excluded by an exclude set whose entries are nonempty relative
paths; a present-but-empty include list instead rejects every path,
including the root. -/
theorem c8_root_passes (excludes includes : Option (List Path))
    (hex : ∀ exs, excludes = some exs → ∀ e ∈ exs, e ≠ [])
    (hinc : ∀ incs, includes = some incs → incs ≠ []) :
    should_include [] excludes includes = true := by
  have h1 : excludedBy excludes [] = false := by
    cases excludes with
    | none => rfl
    | some exs =>
      simp only [excludedBy]
      rw [List.any_eq_false]
      intro ex hmem
      have hne := hex exs rfl ex hmem
      cases ex with
      | nil => exact absurd rfl hne
      | cons a as => simp [startsWith, List.isPrefixOf]
  have h2 : includedBy includes [] = true := by
    cases includes with
    | none => rfl
    | some incs =>
      cases incs with
      | nil => exact absurd rfl (hinc [] rfl)
      | cons i is => simp [includedBy, startsWith]
  simp [should_include, h1, h2]

/-- Witness for the amended C8 at a concrete exclude and include set. -/
theorem c8_root_passes_witness :
    should_include [] (some [["secret"]]) (some [["addons"]]) = true :=
  c8_root_passes (some [["secret"]]) (some [["addons"]])
    (by intro exs hexs; cases hexs; decide)
    (by intro incs hincs; cases hincs; decide)

/-- Claim C4: the sync never deletes or truncates: any destination
entry whose path is not among the performed copy targets keeps its
exact node (kind and content) across the call, whether the call
succeeds or aborts — the operation only creates directories and
copies files. -/
theorem c4_non_deletion (sb db : Path) (inc exc : Option (List Path))
    (w : List WalkItem) (fs : FS) (q : Path) (n : Node)
    (hq : FS.lookup fs q = some n)
    (hnt : q ∉ copyTargets sb db inc exc w) :
    FS.lookup (sync_recursive sb db inc exc w fs).1 q = some n :=
  sync_fst_preserves hq hnt

/-- Witness for C4: a pre-existing destination file that is not a copy
target survives a sync unchanged. -/
theorem c4_witness :
    FS.lookup [(["proj", "old"], Node.file "keep")] ["proj", "old"] =
      some (Node.file "keep") ∧
    ["proj", "old"] ∉ copyTargets [] ["proj"] none none
      [WalkItem.ok ["new"] (Node.file "v")] ∧
    FS.lookup (sync_recursive [] ["proj"] none none
      [WalkItem.ok ["new"] (Node.file "v")]
      [(["proj", "old"], Node.file "keep")]).1 ["proj", "old"] =
      some (Node.file "keep") :=
  ⟨by decide, by decide,
    c4_non_deletion [] ["proj"] none none [WalkItem.ok ["new"] (Node.file "v")]
      [(["proj", "old"], Node.file "keep")] ["proj", "old"] (Node.file "keep")
      (by decide) (by decide)⟩

/-- Claim C5 counterexample: a directory-creation failure aborts the
call, but the error it returns carries only the underlying I/O cause —
no source or destination path is attached, contrary to the claim. -/
theorem c5_counterexample :
    sync_recursive [] [] none none [WalkItem.ok ["d"] Node.dir]
      [(["d"], Node.file "x")] =
      ([(["d"], Node.file "x")], some (SyncError.ioErr "File exists (os error 17)")) ∧
    SyncError.pathInfo (SyncError.ioErr "File exists (os error 17)") = none :=
  ⟨by decide, rfl⟩

/-- Claim C5 (amended): every strip, directory-creation or copy
failure is fatal — `sync_recursive` returns the error at the failing
entry and processes nothing further.  A copy failure is reported with
the source and destination paths attached along with the underlying
cause; a strip failure carries the fixed strip context; a
directory-creation failure propagates only the underlying I/O cause,
with no paths attached. -/
theorem c5_failures_fatal (sb db : Path) (inc exc : Option (List Path)) :
    (∀ (p : Path) (node : Node) (rest : List WalkItem) (fs : FS),
      stripBase sb p = none →
      sync_recursive sb db inc exc (WalkItem.ok p node :: rest) fs =
        (fs, some SyncError.strip)) ∧
    (∀ (p r : Path) (rest : List WalkItem) (fs : FS) (cause : String),
      stripBase sb p = some r → excludedBy exc r = false → includedBy inc r = true →
      create_dir_all fs (db ++ r) = Except.error cause →
      sync_recursive sb db inc exc (WalkItem.ok p Node.dir :: rest) fs =
        (fs, some (SyncError.ioErr cause)) ∧
      SyncError.pathInfo (SyncError.ioErr cause) = none) ∧
    (∀ (p r par : Path) (content cause : String) (rest : List WalkItem) (fs fs1 : FS),
      stripBase sb p = some r → excludedBy exc r = false → includedBy inc r = true →
      parentOf (db ++ r) = some par → create_dir_all fs par = Except.ok fs1 →
      copyFile fs1 (db ++ r) content = Except.error cause →
      sync_recursive sb db inc exc (WalkItem.ok p (Node.file content) :: rest) fs =
        (fs1, some (SyncError.copy p (db ++ r) cause)) ∧
      SyncError.pathInfo (SyncError.copy p (db ++ r) cause) = some (p, db ++ r)) := by
  refine ⟨?_, ?_, ?_⟩
  · intro p node rest fs hstrip
    exact sync_cons_err (syncStep_strip_none hstrip)
  · intro p r rest fs cause hstrip hex hinc hmk
    exact ⟨sync_cons_err (syncStep_dir_err hstrip hex hinc hmk), rfl⟩
  · intro p r par content cause rest fs fs1 hstrip hex hinc hpar hmk hcp
    exact ⟨sync_cons_err (syncStep_file_copy_err hstrip hex hinc hpar hmk hcp), rfl⟩

/-- Witness for the amended C5: a concrete strip failure, a concrete
directory-creation failure (error without paths) and a concrete copy
failure (error with both paths). -/
theorem c5_witness :
    (sync_recursive ["a"] [] none none [WalkItem.ok ["b"] Node.dir] [] =
      ([], some SyncError.strip)) ∧
    (sync_recursive [] [] none none [WalkItem.ok ["d"] Node.dir]
        [(["d"], Node.file "x")] =
      ([(["d"], Node.file "x")], some (SyncError.ioErr "File exists (os error 17)")) ∧
     SyncError.pathInfo (SyncError.ioErr "File exists (os error 17)") = none) ∧
    (sync_recursive [] [] none none [WalkItem.ok ["d"] (Node.file "c")]
        [(["d"], Node.dir)] =
      ([(["d"], Node.dir)],
        some (SyncError.copy ["d"] ["d"] "Is a directory (os error 21)")) ∧
     SyncError.pathInfo (SyncError.copy ["d"] ["d"] "Is a directory (os error 21)") =
       some (["d"], ["d"])) := by
  refine ⟨?_, ?_, ?_⟩
  · exact (c5_failures_fatal ["a"] [] none none).1 ["b"] Node.dir [] [] (by decide)
  · exact (c5_failures_fatal [] [] none none).2.1 ["d"] ["d"] []
      [(["d"], Node.file "x")] "File exists (os error 17)"
      (by decide) (by decide) (by decide) rfl
  · exact (c5_failures_fatal [] [] none none).2.2 ["d"] ["d"] [] "c"
      "Is a directory (os error 21)" [] [(["d"], Node.dir)] [(["d"], Node.dir)]
      (by decide) (by decide) (by decide) (by decide) rfl rfl

/-- Claim C6: a walk item that failed to be read is silently dropped:
syncing a walk that starts with an error item is exactly syncing the
remaining items — no error is returned for it and all later entries
are still processed. -/
theorem c6_walk_errors_skipped (sb db : Path) (includes excludes : Option (List Path))
    (m : String) (rest : List WalkItem) (fs : FS) :
    sync_recursive sb db includes excludes (WalkItem.err m :: rest) fs =
      sync_recursive sb db includes excludes rest fs :=
  sync_cons_ok syncStep_err

/-- Claim C7: an addon whose resolved source base does not exist is
skipped: a warning naming it is recorded, the destination state is
untouched by it, and the remaining addons are processed exactly as if
the missing one were not there. -/
theorem c7_missing_source_skipped (working_dir project_path : Path)
    (walkOf : Path → Option (List WalkItem)) (addon_name : String)
    (addon_spec : AddonSpec) (rest : List (String × AddonSpec)) (fs : FS)
    (hmissing : walkOf (working_dir ++ addon_spec.path.getD []) = none) :
    sync_addons ⟨(addon_name, addon_spec) :: rest, project_path⟩ working_dir walkOf fs =
      syncAddonsGo working_dir project_path walkOf rest fs
        [warnMissing addon_name (working_dir ++ addon_spec.path.getD [])] := by
  simp [sync_addons, syncAddonsGo, hmissing]

/-- Witness for C7: a one-addon specification whose source is missing
still succeeds overall, producing only the warning and no destination
entries. -/
theorem c7_witness :
    sync_addons ⟨[("missing-addon", ⟨some ["gone"], none, none⟩)], ["proj"]⟩ []
      (fun _ => none) [] =
      ([], [warnMissing "missing-addon" ["gone"]], none) := by
  have h := c7_missing_source_skipped [] ["proj"] (fun _ => none) "missing-addon"
    ⟨some ["gone"], none, none⟩ [] [] rfl
  simpa [syncAddonsGo] using h

/-- Claim C10: for every file entry that passes the filter, the
destination parent directory and all its missing ancestors are created
immediately before the copy, so a copy can never fail for lack of a
parent: whatever the walk order, prior state and filter, the only
cause a copy error can ever carry is the destination being a
directory, never a missing path (the destination base being a real,
nonempty path). -/
theorem c10_parent_created_before_copy (sb db : Path) (inc exc : Option (List Path))
    (hdb : db ≠ []) :
    ∀ (w : List WalkItem) (fs fs' : FS) (s d : Path) (cause : String),
      sync_recursive sb db inc exc w fs = (fs', some (SyncError.copy s d cause)) →
      cause = "Is a directory (os error 21)" := by
  intro w
  induction w with
  | nil => intro fs fs' s d cause h; cases h
  | cons item rest ih =>
    intro fs fs' s d cause h
    cases item with
    | err m =>
      rw [sync_cons_ok syncStep_err] at h
      exact ih fs fs' s d cause h
    | ok p node =>
      cases hstrip : stripBase sb p with
      | none =>
        rw [sync_cons_err (syncStep_strip_none hstrip)] at h
        cases h
      | some r =>
        by_cases hex : excludedBy exc r = true
        · rw [sync_cons_ok (syncStep_skip_excluded hstrip hex)] at h
          exact ih fs fs' s d cause h
        · have hex' : excludedBy exc r = false := by simpa using hex
          by_cases hinc : includedBy inc r = true
          · cases node with
            | dir =>
              cases hmk : create_dir_all fs (db ++ r) with
              | error cause2 =>
                rw [sync_cons_err (syncStep_dir_err hstrip hex' hinc hmk)] at h
                cases h
              | ok fsA =>
                rw [sync_cons_ok (syncStep_dir_ok hstrip hex' hinc hmk)] at h
                exact ih fsA fs' s d cause h
            | file content =>
              have htne : db ++ r ≠ [] := fun hh => hdb (List.append_eq_nil.mp hh).1
              cases hpar : parentOf (db ++ r) with
              | none => exact absurd hpar (parentOf_ne_none htne)
              | some par =>
                cases hmk : create_dir_all fs par with
                | error cause2 =>
                  rw [sync_cons_err
                    (syncStep_file_mkdir_err hstrip hex' hinc hpar hmk)] at h
                  cases h
                | ok fs1 =>
                  cases hcp : copyFile fs1 (db ++ r) content with
                  | error cause2 =>
                    rw [sync_cons_err
                      (syncStep_file_copy_err hstrip hex' hinc hpar hmk hcp)] at h
                    cases h
                    exact copyFile_error_isdir hpar
                      (dirExistsAt_of_ancestors (create_dir_all_ok_dirs hmk)) hcp
                  | ok fs2 =>
                    rw [sync_cons_ok (syncStep_file_ok hstrip hex' hinc hpar hmk hcp)] at h
                    exact ih fs2 fs' s d cause h
          · have hinc' : includedBy inc r = false := by simpa using hinc
            rw [sync_cons_ok (syncStep_skip_not_included hstrip hex' hinc')] at h
            exact ih fs fs' s d cause h

/-- Witness for C10: a concrete copy failure, whose cause is indeed
the is-a-directory one. -/
theorem c10_witness :
    sync_recursive [] ["proj"] none none [WalkItem.ok ["a"] (Node.file "x")]
      [(["proj"], Node.dir), (["proj", "a"], Node.dir)] =
      ([(["proj"], Node.dir), (["proj", "a"], Node.dir)],
        some (SyncError.copy ["a"] ["proj", "a"] "Is a directory (os error 21)")) ∧
    "Is a directory (os error 21)" = "Is a directory (os error 21)" := by
  have hrun : sync_recursive [] ["proj"] none none [WalkItem.ok ["a"] (Node.file "x")]
      [(["proj"], Node.dir), (["proj", "a"], Node.dir)] =
      ([(["proj"], Node.dir), (["proj", "a"], Node.dir)],
        some (SyncError.copy ["a"] ["proj", "a"] "Is a directory (os error 21)")) := by
    decide
  exact ⟨hrun, c10_parent_created_before_copy [] ["proj"] none none (by decide)
    [WalkItem.ok ["a"] (Node.file "x")]
    [(["proj"], Node.dir), (["proj", "a"], Node.dir)]
    [(["proj"], Node.dir), (["proj", "a"], Node.dir)]
    ["a"] ["proj", "a"] "Is a directory (os error 21)" hrun⟩

/-- Claim C9: the sync is idempotent: a second run over the same walk,
starting from the state a successful first run produced, succeeds and
leaves that state exactly unchanged.  The walk is assumed to list each
source path at most once, as the walk of a real source tree does. -/
theorem c9_sync_idempotent (sb db : Path) (inc exc : Option (List Path)) :
    ∀ (w : List WalkItem) (fs fs1 : FS),
      (okPaths w).Nodup →
      sync_recursive sb db inc exc w fs = (fs1, none) →
      sync_recursive sb db inc exc w fs1 = (fs1, none) := by
  intro w
  induction w with
  | nil => intro fs fs1 _ h; cases h; rfl
  | cons item rest ih =>
    intro fs fs1 hnd h
    cases item with
    | err m =>
      rw [sync_cons_ok syncStep_err] at h
      rw [sync_cons_ok syncStep_err]
      exact ih fs fs1 (by simpa [okPaths] using hnd) h
    | ok p node =>
      have hnds : (okPaths rest).Nodup ∧ p ∉ okPaths rest := by
        simp only [okPaths] at hnd
        exact ⟨hnd.of_cons, (List.nodup_cons.mp hnd).1⟩
      cases hstrip : stripBase sb p with
      | none =>
        rw [sync_cons_err (syncStep_strip_none hstrip)] at h
        cases h
      | some r =>
        by_cases hex : excludedBy exc r = true
        · rw [sync_cons_ok (syncStep_skip_excluded hstrip hex)] at h
          rw [sync_cons_ok (syncStep_skip_excluded hstrip hex)]
          exact ih fs fs1 hnds.1 h
        · have hex' : excludedBy exc r = false := by simpa using hex
          by_cases hinc : includedBy inc r = true
          · cases node with
            | dir =>
              cases hmk : create_dir_all fs (db ++ r) with
              | error cause =>
                rw [sync_cons_err (syncStep_dir_err hstrip hex' hinc hmk)] at h
                cases h
              | ok fsA =>
                rw [sync_cons_ok (syncStep_dir_ok hstrip hex' hinc hmk)] at h
                have hdirs1 : ∀ q ∈ pathAncestors (db ++ r),
                    FS.lookup fs1 q = some Node.dir :=
                  fun q hq => sync_preserves_dir h (create_dir_all_ok_dirs hmk q hq)
                rw [sync_cons_ok
                  (syncStep_dir_ok hstrip hex' hinc (create_dir_all_id hdirs1))]
                exact ih fsA fs1 hnds.1 h
            | file content =>
              cases hpar : parentOf (db ++ r) with
              | none =>
                rw [sync_cons_err (syncStep_file_noparent hstrip hex' hinc hpar)] at h
                cases h
              | some par =>
                cases hmk : create_dir_all fs par with
                | error cause =>
                  rw [sync_cons_err
                    (syncStep_file_mkdir_err hstrip hex' hinc hpar hmk)] at h
                  cases h
                | ok fsA1 =>
                  cases hcp : copyFile fsA1 (db ++ r) content with
                  | error cause =>
                    rw [sync_cons_err
                      (syncStep_file_copy_err hstrip hex' hinc hpar hmk hcp)] at h
                    cases h
                  | ok fsA2 =>
                    rw [sync_cons_ok (syncStep_file_ok hstrip hex' hinc hpar hmk hcp)] at h
                    have hdirs1 : ∀ q ∈ pathAncestors par,
                        FS.lookup fs1 q = some Node.dir :=
                      fun q hq => sync_preserves_dir h
                        (copyFile_ok_preserves_dir hcp (create_dir_all_ok_dirs hmk q hq))
                    have htgtA2 : FS.lookup fsA2 (db ++ r) = some (Node.file content) := by
                      rw [copyFile_ok_lookup hcp]
                      simp
                    have htgt1 : FS.lookup fs1 (db ++ r) = some (Node.file content) := by
                      have hpres := @sync_fst_preserves sb db inc exc rest fsA2
                        (db ++ r) (Node.file content) htgtA2
                        (@head_target_not_in_rest sb db inc exc p r rest hstrip hnds.2)
                      rwa [h] at hpres
                    rw [sync_cons_ok (syncStep_file_ok hstrip hex' hinc hpar
                      (create_dir_all_id hdirs1)
                      (copyFile_id hpar (dirExistsAt_of_ancestors hdirs1) htgt1))]
                    exact ih fsA2 fs1 hnds.1 h
          · have hinc' : includedBy inc r = false := by simpa using hinc
            rw [sync_cons_ok (syncStep_skip_not_included hstrip hex' hinc')] at h
            rw [sync_cons_ok (syncStep_skip_not_included hstrip hex' hinc')]
            exact ih fs fs1 hnds.1 h

/-- Witness for C9: running a concrete sync a second time on its own
output changes nothing. -/
theorem c9_witness :
    sync_recursive [] ["proj"] none none
      [WalkItem.ok [] Node.dir, WalkItem.ok ["a"] (Node.file "x")]
      [(["proj"], Node.dir), (["proj", "a"], Node.file "x")] =
      ([(["proj"], Node.dir), (["proj", "a"], Node.file "x")], none) :=
  c9_sync_idempotent [] ["proj"] none none
    [WalkItem.ok [] Node.dir, WalkItem.ok ["a"] (Node.file "x")] []
    [(["proj"], Node.dir), (["proj", "a"], Node.file "x")]
    (by decide) (by decide)

end Gdenv
